import Mathlib

/-!
Verification of `src/get-diff.ts` (the `getDiff` function).

The TypeScript module builds an argument vector for `git --no-pager diff`,
runs it through Node's `execFileSync` (no shell), and either returns the
captured standard output (a UTF-8 string, or a `Buffer` of raw bytes when
`options.raw` is set) or wraps the failure in a composed `Error` that
carries the decoded stderr in its message and the original failure in an
`original` field.

The embedding below models bytes as `Nat` (values below 256), `Buffer` as
`List Nat`, and the behavior of the external `git` subprocess as a value of
`ProcBehavior` (spawn failure, or completion with stdout/stderr bytes and an
exit status).  `execFileSync` is modelled after Node's documented semantics:
exceeding `maxBuffer` throws an `ENOBUFS` error, a nonzero exit or signal
termination throws a `Command failed` error carrying `stderr` and
`status`/`signal` fields, and on success the captured stdout is returned,
decoded when an encoding is set.  `Buffer#toString('utf8')`, which
`get-diff.ts` wraps in `try`/`catch` at lines 68-72, never throws: it
decodes totally, substituting U+FFFD replacement characters for invalid
sequences, so it is modelled by the total decoder `utf8DecodeTotal` and the
source's catch branch (the placeholder `<failed to decode stderr>`) is
unreachable.  The strict decoder `utf8Decode?` exists to state which byte
sequences are valid UTF-8; it agrees with `utf8DecodeTotal` exactly on
valid input.
-/

/-- One byte of subprocess output (a value in `0..255`). -/
abbrev Byte := Nat

/-- How the subprocess ended: a numeric exit code, or termination by a
signal (e.g. `"SIGTERM"`). -/
inductive ExitStatus where
  | code (n : Nat)
  | signal (s : String)
deriving DecidableEq, Repr

/-- Behavior of one invocation of the external `git` tool: either the
process could not be launched at all, or it ran to completion producing
stdout bytes, stderr bytes, and an exit status.  `getDiff` is parametrized
by a function `List String → Option String → ProcBehavior` giving the
behavior as a deterministic function of the argument vector and the working
directory (the repository state is folded into that function). -/
inductive ProcBehavior where
  | spawnFailure (message : String)
  | completed (stdout stderr : List Byte) (exit : ExitStatus)
deriving DecidableEq, Repr

/-- A captured stream as it appears on a Node error object: already decoded
to a string when an encoding was set, raw bytes (a `Buffer`) otherwise. -/
inductive StrOrBytes where
  | str (s : String)
  | bytes (b : List Byte)
deriving DecidableEq, Repr

/-- The error value thrown by `execFileSync` (the `err` caught at line 64 of
`get-diff.ts`): a message, the captured stderr (absent for launch
failures), and the child's exit code / terminating signal when it ran. -/
structure ExecError where
  message : String
  stderr : Option StrOrBytes
  status : Option Nat
  signal : Option String
deriving DecidableEq, Repr

/-- What `execFileSync` returns on success: a decoded string when an
encoding was set, a `Buffer` of raw bytes otherwise. -/
inductive ExecOutput where
  | text (s : String)
  | buf (b : List Byte)
deriving DecidableEq, Repr

/-- The composed error thrown by `getDiff` (lines 74-78 of `get-diff.ts`):
the message built from the underlying failure and the decoded stderr, and
the original failure attached as the `original` property. -/
structure DiffError where
  message : String
  original : ExecError
deriving DecidableEq, Repr

/-- Options accepted by `getDiff` (`GetDiffOptions` in `get-diff.ts`):
`gitDir` becomes the subprocess working directory, `raw` selects a `Buffer`
result instead of a UTF-8 string, `maxBuffer` caps the captured output
(default `200 * 1024 * 1024` when unset). -/
structure GetDiffOptions where
  gitDir : Option String := none
  raw : Bool := false
  maxBuffer : Option Nat := none
deriving DecidableEq, Repr

/-- Decode one strict UTF-8 scalar value from a leading byte `b` and the
remaining bytes, returning the code point and the bytes left over; `none` on
any malformed, overlong, surrogate, or out-of-range sequence. -/
def utf8Step (b : Byte) (rest : List Byte) : Option (Nat × List Byte) :=
  if b ≤ 0x7F then
    some (b, rest)
  else if 0xC2 ≤ b ∧ b ≤ 0xDF then
    match rest with
    | b1 :: r =>
      if 0x80 ≤ b1 ∧ b1 ≤ 0xBF then
        some ((b - 0xC0) * 0x40 + (b1 - 0x80), r)
      else none
    | [] => none
  else if 0xE0 ≤ b ∧ b ≤ 0xEF then
    match rest with
    | b1 :: b2 :: r =>
      let lo1 := if b = 0xE0 then 0xA0 else 0x80
      let hi1 := if b = 0xED then 0x9F else 0xBF
      if (lo1 ≤ b1 ∧ b1 ≤ hi1) ∧ (0x80 ≤ b2 ∧ b2 ≤ 0xBF) then
        some ((b - 0xE0) * 0x1000 + (b1 - 0x80) * 0x40 + (b2 - 0x80), r)
      else none
    | _ => none
  else if 0xF0 ≤ b ∧ b ≤ 0xF4 then
    match rest with
    | b1 :: b2 :: b3 :: r =>
      let lo1 := if b = 0xF0 then 0x90 else 0x80
      let hi1 := if b = 0xF4 then 0x8F else 0xBF
      if (lo1 ≤ b1 ∧ b1 ≤ hi1) ∧ (0x80 ≤ b2 ∧ b2 ≤ 0xBF) ∧ (0x80 ≤ b3 ∧ b3 ≤ 0xBF) then
        some ((b - 0xF0) * 0x40000 + (b1 - 0x80) * 0x1000 + (b2 - 0x80) * 0x40 + (b3 - 0x80), r)
      else none
    | _ => none
  else none

/-- Decode a whole byte list as strict UTF-8, fuelled by the number of bytes
(each step consumes at least one byte, so fuel `bs.length` always
suffices). -/
def utf8DecodeList : Nat → List Byte → Option (List Char)
  | _, [] => some []
  | 0, _ :: _ => none
  | fuel + 1, b :: rest =>
    match utf8Step b rest with
    | none => none
    | some (cp, rest') => (utf8DecodeList fuel rest').map (fun cs => Char.ofNat cp :: cs)

/-- Strict UTF-8 decoding of a byte list: the decoded string, or `none` when
the bytes are not valid UTF-8.  This is the validity notion used in the
statements below; the decode actually performed by the library is the total
`utf8DecodeTotal`, which agrees with this one on valid input. -/
def utf8Decode? (bs : List Byte) : Option String :=
  (utf8DecodeList bs.length bs).map String.mk

/-- Total UTF-8 decoding as performed by `Buffer#toString('utf8')` and by
the subprocess layer when an encoding option is set: it never fails, agrees
with strict decoding on valid input, and turns invalid input into
replacement characters (simplified here to one U+FFFD per byte, a stand-in
for the library's maximal-subpart replacement policy that agrees with it on
validity and on valid inputs). -/
def utf8DecodeTotal (bs : List Byte) : String :=
  match utf8Decode? bs with
  | some s => s
  | none => String.mk (bs.map fun _ => Char.ofNat 0xFFFD)

/-- Captured stderr as it appears on the thrown error object: a decoded
string when an encoding was set, the raw bytes otherwise. -/
def mkStderrField (encodingUtf8 : Bool) (errBytes : List Byte) : StrOrBytes :=
  if encodingUtf8 then .str (utf8DecodeTotal errBytes) else .bytes errBytes

/-- Model of Node's `execFileSync('git', args, execOptions)` as invoked at
line 62 of `get-diff.ts`, applied to the behavior the subprocess exhibits
for this invocation.  Following Node's documented semantics: a launch
failure throws; captured output larger than `maxBuffer` on either stream
throws an `ENOBUFS` error (output truncated on the error object, never
returned as a success); a nonzero exit code or signal termination throws a
`Command failed` error carrying `stderr` and `status`/`signal`; otherwise
the captured stdout is returned, decoded iff an encoding was set. -/
def execFileSync (behavior : ProcBehavior) (encodingUtf8 : Bool) (maxBuffer : Nat) :
    Except ExecError ExecOutput :=
  match behavior with
  | .spawnFailure m =>
    .error { message := "spawnSync git " ++ m, stderr := none, status := none, signal := none }
  | .completed out errb exit =>
    if out.length > maxBuffer ∨ errb.length > maxBuffer then
      .error { message := "spawnSync git ENOBUFS",
               stderr := some (mkStderrField encodingUtf8 (errb.take maxBuffer)),
               status := none, signal := none }
    else
      match exit with
      | .code 0 =>
        .ok (if encodingUtf8 then .text (utf8DecodeTotal out) else .buf out)
      | .code n =>
        .error { message := "Command failed: git",
                 stderr := some (mkStderrField encodingUtf8 errb),
                 status := some n, signal := none }
      | .signal s =>
        .error { message := "Command failed: git",
                 stderr := some (mkStderrField encodingUtf8 errb),
                 status := none, signal := some s }

/-- The argument vector built at lines 39-49 of `get-diff.ts`: start from
`['--no-pager', 'diff']`; if `revRange` is set and nonempty push it as a
single argument; if `paths` is nonempty push `'--'` followed by every
path. -/
def getDiffArgs (revRange : Option String) (paths : List String) : List String :=
  let args := ["--no-pager", "diff"]
  let args := match revRange with
    | some r => if 0 < r.length then args ++ [r] else args
    | none => args
  if 0 < paths.length then args ++ ["--"] ++ paths else args

/-- The single invocation of the external tool that `getDiff` performs:
executable name, argument vector (lines 39-49), and working directory
(line 56 of `get-diff.ts`). -/
structure GitInvocation where
  file : String
  argv : List String
  cwd : Option String
deriving DecidableEq, Repr

/-- The invocation `getDiff revRange paths options` hands to the subprocess
layer. -/
def getDiffInvocation (revRange : Option String) (paths : List String)
    (options : GetDiffOptions) : GitInvocation :=
  { file := "git", argv := getDiffArgs revRange paths, cwd := options.gitDir }

/-- The `stderrMsg` computed at lines 66-73 of `get-diff.ts`: empty when the
caught failure has no stderr (`err && err.stderr` falsy), the string itself
when stderr is already a string, and otherwise
`err.stderr.toString('utf8')`.  `Buffer#toString('utf8')` is total: invalid
sequences become U+FFFD replacement characters and the call never throws,
so the `catch` at lines 70-72 — which would substitute the placeholder
`<failed to decode stderr>` — is unreachable and the decoded (possibly
replacement-laden) text is always used. -/
def stderrMsgOf (err : ExecError) : String :=
  match err.stderr with
  | none => ""
  | some (.str s) => s
  | some (.bytes b) => utf8DecodeTotal b

/-- The catch block of `get-diff.ts` (lines 64-78): compose a single error
whose message is `git diff failed: <underlying message>` followed, when
`stderrMsg` is nonempty, by a `stderr:` block holding it, and attach the
caught failure as the `original` property. -/
def composeDiffError (err : ExecError) : DiffError :=
  { message := "git diff failed: " ++ err.message ++
      (if stderrMsgOf err = "" then "" else "\nstderr:\n" ++ stderrMsgOf err),
    original := err }

/-- The `getDiff` function of `get-diff.ts` (lines 34-80), parametrized by
the subprocess behavior function `git` (argument vector and working
directory to behavior).  Builds the argument vector, runs `execFileSync`
with `cwd := options.gitDir`, `encoding := options.raw ? null : 'utf8'` and
`maxBuffer := options.maxBuffer ?? 200 * 1024 * 1024`, returns the captured
output on success, and otherwise composes a single error whose message
appends the decoded stderr (the source would substitute the placeholder
`<failed to decode stderr>` if the decode threw, but it never does) and
whose `original` field is the caught failure. -/
def getDiff (git : List String → Option String → ProcBehavior)
    (revRange : Option String) (paths : List String := [])
    (options : GetDiffOptions := {}) : Except DiffError ExecOutput :=
  let args := getDiffArgs revRange paths
  let encodingUtf8 := !options.raw
  let maxBuffer := options.maxBuffer.getD (200 * 1024 * 1024)
  match execFileSync (git args options.gitDir) encodingUtf8 maxBuffer with
  | .ok result => .ok result
  | .error err => .error (composeDiffError err)

/-- A nonempty string has positive length (used to relate the source's
`revRange.length > 0` test to emptiness). -/
theorem String.pos_length_iff_ne_empty (s : String) : 0 < s.length ↔ s ≠ "" := by
  constructor
  · intro h he
    subst he
    simp [String.length] at h
  · intro h
    rcases s with ⟨l⟩
    cases l with
    | nil => exact absurd rfl h
    | cons c cs => simp [String.length]

/-- C1: the argument vector is exactly `['--no-pager', 'diff']`, then the
revision range as one unchanged argument exactly when it is provided and
nonempty, then `'--'` followed by the paths verbatim and in order exactly
when `paths` is nonempty. -/
theorem getDiff_argument_vector (revRange : Option String) (paths : List String) :
    getDiffArgs revRange paths =
      ["--no-pager", "diff"]
        ++ (match revRange with
            | some r => if r = "" then [] else [r]
            | none => [])
        ++ (if paths = [] then [] else "--" :: paths) := by
  unfold getDiffArgs
  cases revRange with
  | none =>
    cases paths with
    | nil => simp
    | cons p ps => simp
  | some r =>
    by_cases hr : r = ""
    · subst hr
      cases paths with
      | nil => simp
      | cons p ps => simp
    · have hlen : 0 < r.length := (String.pos_length_iff_ne_empty r).mpr hr
      cases paths with
      | nil => simp [hlen, hr]
      | cons p ps => simp [hlen, hr]

/-- C10: when `paths` is nonempty the `'--'` separator is appended and every
element, empty strings included, is passed through as its own argument: the
vector is the no-path vector followed by `'--'` and the paths themselves,
for any contents of the elements. -/
theorem getDiff_separator_on_any_nonempty_paths (revRange : Option String)
    (x : String) (xs : List String) :
    getDiffArgs revRange (x :: xs) = getDiffArgs revRange [] ++ "--" :: x :: xs := by
  unfold getDiffArgs
  cases revRange with
  | none => simp
  | some r =>
    by_cases hr : 0 < r.length
    · simp [hr]
    · simp [hr]

/-- C9: the options value never influences the argument vector handed to the
subprocess — any two options give the identical vector — and `getDiff`
consults the subprocess behavior only at the recorded invocation point
(its argument vector and the `gitDir` working directory), so options enter
only through the working directory, the encoding, and the output cap. -/
theorem getDiff_options_do_not_affect_argv :
    (∀ (revRange : Option String) (paths : List String) (o₁ o₂ : GetDiffOptions),
      (getDiffInvocation revRange paths o₁).argv = (getDiffInvocation revRange paths o₂).argv)
    ∧ (∀ (git₁ git₂ : List String → Option String → ProcBehavior)
        (revRange : Option String) (paths : List String) (o : GetDiffOptions),
        git₁ (getDiffInvocation revRange paths o).argv (getDiffInvocation revRange paths o).cwd
          = git₂ (getDiffInvocation revRange paths o).argv (getDiffInvocation revRange paths o).cwd →
        getDiff git₁ revRange paths o = getDiff git₂ revRange paths o) := by
  constructor
  · intro revRange paths o₁ o₂
    rfl
  · intro git₁ git₂ revRange paths o h
    unfold getDiffInvocation at h
    simp only at h
    simp only [getDiff, h]

/-- Witness for C9 at a concrete input: two behavior functions that agree on
the invocation `['--no-pager', 'diff', 'HEAD']` in directory `/repo` but
differ elsewhere give identical results. -/
theorem getDiff_options_do_not_affect_argv_witness :
    (getDiffInvocation (some "HEAD") [] { gitDir := some "/repo" }).argv
      = (getDiffInvocation (some "HEAD") [] { raw := true, maxBuffer := some 7 }).argv
    ∧ getDiff (fun a c => if a = ["--no-pager", "diff", "HEAD"] ∧ c = some "/repo" then
          ProcBehavior.completed [10] [] (ExitStatus.code 0)
        else ProcBehavior.spawnFailure "ENOENT")
        (some "HEAD") [] { gitDir := some "/repo" }
      = getDiff (fun _ _ => ProcBehavior.completed [10] [] (ExitStatus.code 0))
        (some "HEAD") [] { gitDir := some "/repo" } := by
  refine ⟨getDiff_options_do_not_affect_argv.1 (some "HEAD") []
      { gitDir := some "/repo" } { raw := true, maxBuffer := some 7 },
    getDiff_options_do_not_affect_argv.2 _ _ (some "HEAD") [] { gitDir := some "/repo" } ?_⟩
  decide

/-- C8: with the subprocess modelled as a deterministic function of the
argument vector and working directory (repository state folded in), two
calls with identical arguments against the same state yield identical
results. -/
theorem getDiff_deterministic (git₁ git₂ : List String → Option String → ProcBehavior)
    (revRange : Option String) (paths : List String) (options : GetDiffOptions)
    (h : ∀ args cwd, git₁ args cwd = git₂ args cwd) :
    getDiff git₁ revRange paths options = getDiff git₂ revRange paths options := by
  have hg : git₁ = git₂ := funext fun a => funext fun c => h a c
  rw [hg]

/-- Witness for C8 at a concrete input. -/
theorem getDiff_deterministic_witness :
    getDiff (fun _ _ => ProcBehavior.completed [64, 64] [] (ExitStatus.code 0)) (some "HEAD~1..HEAD") [] {}
      = getDiff (fun _ _ => ProcBehavior.completed [64, 64] [] (ExitStatus.code 0)) (some "HEAD~1..HEAD") [] {} :=
  getDiff_deterministic _ _ (some "HEAD~1..HEAD") [] {} (fun _ _ => rfl)

/-- C2: when the subprocess completes with exit code 0 and both captured
streams fit under the cap, `getDiff` returns the UTF-8 decoded text of
stdout if `options.raw` is false, and the unmodified byte sequence if
`options.raw` is true — the bytes come back untouched whether or not they
are valid UTF-8. -/
theorem getDiff_raw_selects_result_type (revRange : Option String) (paths : List String)
    (options : GetDiffOptions) (out errb : List Byte)
    (hout : out.length ≤ options.maxBuffer.getD (200 * 1024 * 1024))
    (herr : errb.length ≤ options.maxBuffer.getD (200 * 1024 * 1024)) :
    getDiff (fun _ _ => ProcBehavior.completed out errb (ExitStatus.code 0)) revRange paths options
      = .ok (if options.raw then ExecOutput.buf out else ExecOutput.text (utf8DecodeTotal out)) := by
  simp only [getDiff, execFileSync]
  rw [if_neg]
  · cases hraw : options.raw <;> simp
  · push_neg
    exact ⟨hout, herr⟩

/-- Witness for C2 at concrete inputs: with `raw := true` the invalid UTF-8
byte `0xFF` comes back unmodified as bytes; with `raw` unset the ASCII
stdout `"hi"` comes back as decoded text. -/
theorem getDiff_raw_selects_result_type_witness :
    getDiff (fun _ _ => ProcBehavior.completed [0xFF] [] (ExitStatus.code 0))
        none [] { raw := true }
      = .ok (ExecOutput.buf [0xFF])
    ∧ getDiff (fun _ _ => ProcBehavior.completed [104, 105] [] (ExitStatus.code 0))
        none [] {}
      = .ok (ExecOutput.text "hi") := by
  constructor
  · have h := getDiff_raw_selects_result_type none [] { raw := true } [0xFF] []
      (by decide) (by decide)
    simpa using h
  · have h := getDiff_raw_selects_result_type none [] {} [104, 105] []
      (by decide) (by decide)
    rw [h]
    rfl

/-- C7: when the subprocess exits with status 0 and the captured output fits
under the configured cap, `getDiff` returns a result and does not throw:
the value is `Except.ok`, so no error accompanies it and nothing is
truncated. -/
theorem getDiff_zero_exit_returns (revRange : Option String) (paths : List String)
    (options : GetDiffOptions) (out errb : List Byte)
    (hout : out.length ≤ options.maxBuffer.getD (200 * 1024 * 1024))
    (herr : errb.length ≤ options.maxBuffer.getD (200 * 1024 * 1024)) :
    ∃ v, getDiff (fun _ _ => ProcBehavior.completed out errb (ExitStatus.code 0))
        revRange paths options = .ok v := by
  refine ⟨if options.raw then ExecOutput.buf out else ExecOutput.text (utf8DecodeTotal out), ?_⟩
  simp only [getDiff, execFileSync]
  rw [if_neg]
  · cases hraw : options.raw <;> simp
  · push_neg
    exact ⟨hout, herr⟩

/-- Witness for C7 at a concrete input. -/
theorem getDiff_zero_exit_returns_witness :
    ∃ v, getDiff (fun _ _ => ProcBehavior.completed [43, 10] [] (ExitStatus.code 0))
        (some "HEAD~1..HEAD") ["a.txt"] {} = .ok v :=
  getDiff_zero_exit_returns (some "HEAD~1..HEAD") ["a.txt"] {} [43, 10] []
    (by decide) (by decide)

/-- The composed error always carries the caught failure unchanged in its
`original` field. -/
theorem composeDiffError_original (err : ExecError) :
    (composeDiffError err).original = err := rfl

/-- Whatever the stderr bytes on the error object are, the `stderrMsg` of
the catch block is their total UTF-8 decode, whichever encoding was in
force: with an encoding set the subprocess layer already decoded them, and
in raw mode `toString('utf8')` performs the same total decode. -/
theorem stderrMsgOf_mkStderrField (msg : String) (errb : List Byte) (status : Option Nat)
    (signal : Option String) (enc : Bool) :
    stderrMsgOf { message := msg, stderr := some (mkStderrField enc errb),
                  status := status, signal := signal } = utf8DecodeTotal errb := by
  cases enc with
  | false => simp [stderrMsgOf, mkStderrField]
  | true => simp [stderrMsgOf, mkStderrField]

/-- When the stderr bytes on the error object decode as valid UTF-8, the
`stderrMsg` of the catch block is exactly that decoded text, whichever
encoding was in force. -/
theorem stderrMsgOf_of_valid (msg : String) (errb : List Byte) (status : Option Nat)
    (signal : Option String) (enc : Bool) (s : String)
    (hdec : utf8Decode? errb = some s) :
    stderrMsgOf { message := msg, stderr := some (mkStderrField enc errb),
                  status := status, signal := signal } = s := by
  rw [stderrMsgOf_mkStderrField]
  simp [utf8DecodeTotal, hdec]

/-- Invalid UTF-8 stderr is necessarily nonempty and its total decode is a
nonempty replacement-character string. -/
theorem utf8DecodeTotal_ne_empty_of_invalid (bs : List Byte)
    (h : utf8Decode? bs = none) : utf8DecodeTotal bs ≠ "" := by
  cases bs with
  | nil => simp [utf8Decode?, utf8DecodeList] at h
  | cons b rest =>
    unfold utf8DecodeTotal
    rw [h]
    intro hc
    have hd := congrArg String.data hc
    simp at hd

/-- A completed subprocess run whose streams fit under the cap and whose
exit code is nonzero makes `execFileSync` throw the `Command failed` error
carrying stderr and the exit status. -/
theorem execFileSync_nonzero_exit (out errb : List Byte) (m : Nat) (enc : Bool) (cap : Nat)
    (hout : out.length ≤ cap) (herr : errb.length ≤ cap) :
    execFileSync (ProcBehavior.completed out errb (ExitStatus.code (m + 1))) enc cap
      = .error { message := "Command failed: git",
                 stderr := some (mkStderrField enc errb),
                 status := some (m + 1), signal := none } := by
  simp only [execFileSync]
  rw [if_neg]
  push_neg
  exact ⟨hout, herr⟩

/-- C6: every failure leaves `getDiff` as exactly one composed error whose
`original` field is the underlying `execFileSync` failure itself (so exit
code and signal are recoverable without parsing the message), and
conversely every underlying failure is re-wrapped and surfaced — nothing is
swallowed. -/
theorem getDiff_error_carries_original (git : List String → Option String → ProcBehavior)
    (revRange : Option String) (paths : List String) (options : GetDiffOptions) :
    (∀ e, getDiff git revRange paths options = .error e →
      execFileSync (git (getDiffArgs revRange paths) options.gitDir) (!options.raw)
        (options.maxBuffer.getD (200 * 1024 * 1024)) = .error e.original)
    ∧ (∀ err, execFileSync (git (getDiffArgs revRange paths) options.gitDir) (!options.raw)
        (options.maxBuffer.getD (200 * 1024 * 1024)) = .error err →
      ∃ e, getDiff git revRange paths options = .error e ∧ e.original = err) := by
  cases h : execFileSync (git (getDiffArgs revRange paths) options.gitDir) (!options.raw)
      (options.maxBuffer.getD (200 * 1024 * 1024)) with
  | ok v =>
    refine ⟨fun e he => ?_, fun err herr => ?_⟩
    · simp [getDiff, h] at he
    · exact absurd herr (by simp)
  | error err0 =>
    refine ⟨fun e he => ?_, fun err herr => ?_⟩
    · simp only [getDiff, h, Except.error.injEq] at he
      rw [← he, composeDiffError_original]
    · have herr0 : err0 = err := by
        injection herr
      refine ⟨composeDiffError err0, ?_, ?_⟩
      · simp only [getDiff, h]
      · rw [composeDiffError_original, herr0]

/-- Witness for C6 at a concrete input (a launch failure). -/
theorem getDiff_error_carries_original_witness :
    execFileSync ((fun _ _ => ProcBehavior.spawnFailure "ENOENT")
        (getDiffArgs none []) (GetDiffOptions.gitDir {}))
      (!GetDiffOptions.raw {}) ((GetDiffOptions.maxBuffer {}).getD (200 * 1024 * 1024))
      = .error { message := "spawnSync git ENOENT", stderr := none,
                 status := none, signal := none }
    ∧ ∃ e, getDiff (fun _ _ => ProcBehavior.spawnFailure "ENOENT") none [] {} = .error e
        ∧ e.original = { message := "spawnSync git ENOENT", stderr := none,
                         status := none, signal := none } :=
  ⟨rfl, (getDiff_error_carries_original (fun _ _ => ProcBehavior.spawnFailure "ENOENT")
      none [] {}).2
    { message := "spawnSync git ENOENT", stderr := none, status := none, signal := none }
    rfl⟩

/-- C3: output beyond the configured cap (`options.maxBuffer`, defaulting to
`200 * 1024 * 1024`) makes the call fail with the `ENOBUFS` "output too
large" error — carried as the `original` of the composed error, with no
exit status and a message distinct from the `Command failed` message of a
nonzero exit — and is never returned as a (truncated) success. -/
theorem getDiff_overflow_is_distinct_error (revRange : Option String) (paths : List String)
    (options : GetDiffOptions) (out errb : List Byte) (exit : ExitStatus)
    (hover : out.length > options.maxBuffer.getD (200 * 1024 * 1024)) :
    ∃ e, getDiff (fun _ _ => ProcBehavior.completed out errb exit) revRange paths options
        = .error e
      ∧ e.original.message = "spawnSync git ENOBUFS"
      ∧ e.original.status = none
      ∧ e.original.message ≠ "Command failed: git" := by
  have hexec : execFileSync (ProcBehavior.completed out errb exit) (!options.raw)
      (options.maxBuffer.getD (200 * 1024 * 1024))
      = .error { message := "spawnSync git ENOBUFS",
                 stderr := some (mkStderrField (!options.raw)
                   (errb.take (options.maxBuffer.getD (200 * 1024 * 1024)))),
                 status := none, signal := none } := by
    simp only [execFileSync]
    rw [if_pos (Or.inl hover)]
  refine ⟨composeDiffError ⟨"spawnSync git ENOBUFS",
      some (mkStderrField (!options.raw)
        (errb.take (options.maxBuffer.getD (200 * 1024 * 1024)))),
      none, none⟩, ?_, rfl, rfl, ?_⟩
  · simp only [getDiff, hexec]
  · show "spawnSync git ENOBUFS" ≠ "Command failed: git"
    decide

/-- Witness for C3 at a concrete input: three bytes of output against a
two-byte cap. -/
theorem getDiff_overflow_is_distinct_error_witness :
    [0, 0, 0].length > ((GetDiffOptions.maxBuffer { maxBuffer := some 2 }).getD (200 * 1024 * 1024))
    ∧ ∃ e, getDiff (fun _ _ => ProcBehavior.completed [0, 0, 0] [] (ExitStatus.code 0))
          none [] { maxBuffer := some 2 } = .error e
        ∧ e.original.message = "spawnSync git ENOBUFS"
        ∧ e.original.status = none
        ∧ e.original.message ≠ "Command failed: git" :=
  ⟨by decide, getDiff_overflow_is_distinct_error none [] { maxBuffer := some 2 }
    [0, 0, 0] [] (ExitStatus.code 0) (by decide)⟩

/-- C4: when the subprocess exits nonzero and its stderr bytes decode as
(nonempty) UTF-8 text, the composed error's message is the underlying
failure description followed by a labeled `stderr:` block holding exactly
that decoded text, and the underlying description is also kept on the
attached original failure. -/
theorem getDiff_nonzero_exit_stderr_in_message (revRange : Option String)
    (paths : List String) (options : GetDiffOptions) (out errb : List Byte)
    (n : Nat) (s : String) (hn : n ≠ 0)
    (hout : out.length ≤ options.maxBuffer.getD (200 * 1024 * 1024))
    (herr : errb.length ≤ options.maxBuffer.getD (200 * 1024 * 1024))
    (hdec : utf8Decode? errb = some s) (hne : s ≠ "") :
    ∃ e, getDiff (fun _ _ => ProcBehavior.completed out errb (ExitStatus.code n))
        revRange paths options = .error e
      ∧ e.message = "git diff failed: " ++ "Command failed: git" ++ ("\nstderr:\n" ++ s)
      ∧ e.original.message = "Command failed: git" := by
  cases n with
  | zero => exact absurd rfl hn
  | succ m =>
    have hexec := execFileSync_nonzero_exit out errb m (!options.raw)
      (options.maxBuffer.getD (200 * 1024 * 1024)) hout herr
    refine ⟨composeDiffError ⟨"Command failed: git",
        some (mkStderrField (!options.raw) errb), some (m + 1), none⟩, ?_, ?_, rfl⟩
    · simp only [getDiff, hexec]
    · have hs : stderrMsgOf ⟨"Command failed: git",
          some (mkStderrField (!options.raw) errb), some (m + 1), none⟩ = s :=
        stderrMsgOf_of_valid _ _ _ _ _ _ hdec
      simp only [composeDiffError, hs]
      rw [if_neg hne]

/-- Witness for C4 at a concrete input: exit code 1 with stderr bytes
spelling `fatal` in ASCII. -/
theorem getDiff_nonzero_exit_stderr_in_message_witness :
    utf8Decode? [102, 97, 116, 97, 108] = some "fatal"
    ∧ ∃ e, getDiff (fun _ _ => ProcBehavior.completed [] [102, 97, 116, 97, 108]
          (ExitStatus.code 1)) (some "bad..range") [] {} = .error e
        ∧ e.message = "git diff failed: " ++ "Command failed: git" ++ ("\nstderr:\n" ++ "fatal")
        ∧ e.original.message = "Command failed: git" :=
  ⟨by decide, getDiff_nonzero_exit_stderr_in_message (some "bad..range") [] {}
    [] [102, 97, 116, 97, 108] 1 "fatal" (by decide) (by decide) (by decide)
    (by decide) (by decide)⟩

/-- C5 counterexample: on a failing call with default options (`raw` unset,
so stderr reaches the catch block already decoded to a string by the
subprocess layer) whose stderr byte `0xFF` is not valid UTF-8, the composed
message carries the replacement-decoded text and not the placeholder
`<failed to decode stderr>` — so the placeholder does not appear on every
failing call with invalid UTF-8 stderr. -/
theorem getDiff_placeholder_counterexample :
    ∃ e, getDiff (fun _ _ => ProcBehavior.completed [] [0xFF] (ExitStatus.code 1))
        none [] {} = .error e
      ∧ ¬ ("<failed to decode stderr>".data <:+: e.message.data) := by
  refine ⟨composeDiffError ⟨"Command failed: git",
      some (StrOrBytes.str (String.mk [Char.ofNat 0xFFFD])), some 1, none⟩, ?_, ?_⟩
  · rfl
  · decide

/-- C5 (amended): on every failing call whose stderr bytes are not valid
UTF-8, the composed error's message carries the replacement-character
decode of those bytes in the labeled block — never the fixed placeholder
`<failed to decode stderr>`, whose branch is unreachable because
`Buffer#toString('utf8')` never throws — and the call still ends in the
single composed error: no secondary decoding error reaches the caller. -/
theorem getDiff_invalid_stderr_replacement (revRange : Option String)
    (paths : List String) (options : GetDiffOptions) (out errb : List Byte)
    (n : Nat) (hn : n ≠ 0)
    (hout : out.length ≤ options.maxBuffer.getD (200 * 1024 * 1024))
    (herr : errb.length ≤ options.maxBuffer.getD (200 * 1024 * 1024))
    (hdec : utf8Decode? errb = none) :
    ∃ e, getDiff (fun _ _ => ProcBehavior.completed out errb (ExitStatus.code n))
        revRange paths options = .error e
      ∧ e.message = "git diff failed: " ++ "Command failed: git"
          ++ ("\nstderr:\n" ++ utf8DecodeTotal errb)
      ∧ ¬ ("<failed to decode stderr>".data <:+: (utf8DecodeTotal errb).data) := by
  cases n with
  | zero => exact absurd rfl hn
  | succ m =>
    have hexec := execFileSync_nonzero_exit out errb m (!options.raw)
      (options.maxBuffer.getD (200 * 1024 * 1024)) hout herr
    refine ⟨composeDiffError ⟨"Command failed: git",
        some (mkStderrField (!options.raw) errb), some (m + 1), none⟩, ?_, ?_, ?_⟩
    · simp only [getDiff, hexec]
    · have hs := stderrMsgOf_mkStderrField "Command failed: git" errb (some (m + 1))
        none (!options.raw)
      simp only [composeDiffError, hs]
      rw [if_neg (utf8DecodeTotal_ne_empty_of_invalid errb hdec)]
    · intro hinf
      have hmem : ('<' : Char) ∈ (utf8DecodeTotal errb).data :=
        hinf.subset (by decide)
      unfold utf8DecodeTotal at hmem
      rw [hdec] at hmem
      simp only [String.mk, List.mem_map] at hmem
      obtain ⟨a, _, hfa⟩ := hmem
      exact absurd hfa (by decide)

/-- Witness for the amended C5 at a concrete input: `raw := true` (stderr
reaches the catch block as raw bytes) with the invalid UTF-8 stderr byte
`0xFF` and exit code 1. -/
theorem getDiff_invalid_stderr_replacement_witness :
    utf8Decode? [0xFF] = none
    ∧ ∃ e, getDiff (fun _ _ => ProcBehavior.completed [] [0xFF] (ExitStatus.code 1))
          none [] { raw := true } = .error e
        ∧ e.message = "git diff failed: " ++ "Command failed: git"
            ++ ("\nstderr:\n" ++ utf8DecodeTotal [0xFF])
        ∧ ¬ ("<failed to decode stderr>".data <:+: (utf8DecodeTotal [0xFF]).data) :=
  ⟨by decide, getDiff_invalid_stderr_replacement none [] { raw := true } [] [0xFF] 1
    (by decide) (by decide) (by decide) (by decide)⟩
